import Mathlib

/-!
Verification of the style-command layer of the repository
(`src/library/text.rs`): dynamic-to-static coercion of command arguments
and deferred, scoped application of style templates to a formatting
context.  Definitions are a shallow embedding of the Rust source; lengths
and ratios are modelled as rationals.  Parts of the repository that the
source file uses but that are declared elsewhere (the value type, the
argument-binding machinery, the state aggregates and the context's
scoped-execution discipline) are modelled from the specification; each
such definition is marked in its doc comment.
-/

namespace Typst

/-- Modelled from the spec: a linear length, the combination of a
relative (proportional) component and an absolute component; relative
values resolve against the current enclosing value (crate `geom`,
missing from the sources). -/
structure Linear where
  rel : ℚ
  abs : ℚ
deriving DecidableEq

/-- Modelled from the spec: resolving a linear length against a current
length multiplies the relative part by it and adds the absolute part. -/
def Linear.resolve (l : Linear) (length : ℚ) : ℚ :=
  l.rel * length + l.abs

/-- Modelled from the spec: a linear length is zero when both of its
components are zero. -/
def Linear.isZero (l : Linear) : Bool :=
  decide (l.rel = 0 ∧ l.abs = 0)

/-- Modelled from the spec: an opaque color value (crate `color`,
missing from the sources). -/
structure Color where
  val : Nat
deriving DecidableEq

/-- Modelled from the spec: a paint, currently always a solid color
(crate `layout`, missing from the sources). -/
inductive Paint where
  | color (c : Color)
deriving DecidableEq

/-- Modelled from the spec: the slant of a font face (crate `font`,
missing from the sources). -/
inductive FontStyle where
  | normal
  | italic
  | oblique
deriving DecidableEq

/-- Modelled from the spec: a font weight on the numeric 1-1000 scale
(crate `font`, missing from the sources). -/
structure FontWeight where
  value : Nat
deriving DecidableEq

/-- Modelled from the spec: mapping an integer through the numeric
1-1000 weight scale, clamping it into the scale. -/
def FontWeight.from_number (n : Nat) : FontWeight :=
  ⟨min (max n 1) 1000⟩

/-- Modelled from the spec: the maximum ("black") weight, used as the
documented fallback sentinel for invalid weight coercions. -/
def FontWeight.BLACK : FontWeight :=
  ⟨1000⟩

/-- Modelled from the spec: a font stretch derived from a ratio by a
direct scale transform (crate `font`, missing from the sources). -/
structure FontStretch where
  ratio : ℚ
deriving DecidableEq

/-- Modelled from the spec: building a font stretch from a ratio is a
direct scale transform. -/
def FontStretch.from_ratio (r : ℚ) : FontStretch :=
  ⟨r⟩

/-- Modelled from the spec: a vertical font metric selecting a font edge
(crate `exec`, missing from the sources). -/
inductive VerticalFontMetric where
  | ascender
  | capHeight
  | xHeight
  | baseline
  | descender
deriving DecidableEq

/-- Modelled from the spec: a font family, either one of the generic
classes or a named family (crate `font`, missing from the sources). -/
inductive FontFamily where
  | serif
  | sansSerif
  | monospace
  | named (s : String)
deriving DecidableEq

/-- Modelled from the spec: the family map of the font state: the active
list plus the fallback chains behind the three generic classes; defaults
pre-populate the generics (crate `exec`, missing from the sources). -/
structure FamilyMap where
  list : List FontFamily
  serif : List String
  sans_serif : List String
  monospace : List String
deriving DecidableEq

/-- Modelled from the spec: the font variant: style, weight and stretch
(crate `font`, missing from the sources). -/
structure FontVariant where
  style : FontStyle
  weight : FontWeight
  stretch : FontStretch
deriving DecidableEq

/-- Modelled from the spec: the decoration descriptor for an underline,
overline or strikethrough: optional stroke paint, optional thickness,
optional offset and an extent (type `LineState` of crate `exec`, missing
from the sources). -/
structure LineState where
  stroke : Option Paint
  thickness : Option Linear
  offset : Option Linear
  extent : Linear
deriving DecidableEq

/-- Modelled from the spec: the font style-state aggregate: size, family
map, variant, vertical edges, fill paint and the three optional
decoration descriptors (type `FontState` of crate `exec`, missing from
the sources). -/
structure FontState where
  size : ℚ
  families : FamilyMap
  variant : FontVariant
  top_edge : VerticalFontMetric
  bottom_edge : VerticalFontMetric
  fill : Paint
  strikethrough : Option LineState
  underline : Option LineState
  overline : Option LineState
deriving DecidableEq

/-- Modelled from the spec: the paragraph style-state aggregate:
spacing, leading and word spacing (crate `exec`, missing from the
sources). -/
structure ParState where
  spacing : Linear
  leading : Linear
  word_spacing : Linear
deriving DecidableEq

/-- Modelled from the spec: a text direction (crate `geom`, missing from
the sources). -/
inductive Dir where
  | ltr
  | rtl
  | ttb
  | btt
deriving DecidableEq

/-- Modelled from the spec: the two logical axes (crate `geom`, missing
from the sources). -/
inductive SpecAxis where
  | horizontal
  | vertical
deriving DecidableEq

/-- Modelled from the spec: the logical axis a direction lies on;
left-to-right and right-to-left are horizontal, the two others
vertical. -/
def Dir.axis : Dir → SpecAxis
  | .ltr => .horizontal
  | .rtl => .horizontal
  | .ttb => .vertical
  | .btt => .vertical

/-- Modelled from the spec: the language style-state aggregate: the text
direction (crate `exec`, missing from the sources). -/
structure LangState where
  dir : Dir
deriving DecidableEq

/-- Modelled from the spec: the formatting context's style state, the
aggregate of the font, paragraph and language dimensions (crate `exec`,
missing from the sources). -/
structure State where
  font : FontState
  par : ParState
  lang : LangState
deriving DecidableEq

/-- Captured options of a `font` template: one option per argument the
command may set; `none` means unset (inherit). -/
structure FontOptions where
  size : Option Linear
  list : Option (List FontFamily)
  style : Option FontStyle
  weight : Option FontWeight
  stretch : Option FontStretch
  top_edge : Option VerticalFontMetric
  bottom_edge : Option VerticalFontMetric
  fill : Option Color
  serif : Option (List String)
  sans_serif : Option (List String)
  monospace : Option (List String)
deriving DecidableEq

/-- Captured options of a `par` template. -/
structure ParOptions where
  spacing : Option Linear
  leading : Option Linear
  word_spacing : Option Linear
deriving DecidableEq

/-- Which decoration substate a `line_impl` template addresses; stands
for the field-selector function pointer passed to `line_impl`. -/
inductive LineKind where
  | strikethrough
  | underline
  | overline
deriving DecidableEq

/-- A template value: literal content together with the deferred style
applications built by the style commands, each carrying its captured,
already-coerced options and its nested body. -/
inductive Template where
  | empty
  | text (s : String)
  | seq (a b : Template)
  | font (opts : FontOptions) (body : Template)
  | par (opts : ParOptions) (body : Template)
  | lang (dir : Option Dir) (iso : Option Dir) (body : Template)
  | line (kind : LineKind) (state : Option LineState) (body : Template)
deriving DecidableEq

/-- Modelled from the spec: the dynamic value type over which coercion
operates, a sum over the shapes the commands consume (crate `eval`,
missing from the sources).  Directions, font styles and vertical metrics
appear as dynamic values. -/
inductive Value where
  | str (s : String)
  | int (n : ℤ)
  | length (l : ℚ)
  | relative (r : ℚ)
  | linear (l : Linear)
  | color (c : Color)
  | dir (d : Dir)
  | fontStyle (s : FontStyle)
  | vertMetric (m : VerticalFontMetric)
  | array (vs : List Value)
  | template (t : Template)

/-- Case-normalization of family and variant strings, lowercasing the
ASCII letters character by character. -/
def lower (s : String) : String :=
  ⟨s.data.map Char.toLower⟩

/-- Modelled from the spec: coercion of a value to a string succeeds
exactly on string values (crate `eval`, missing from the sources). -/
def castEcoString : Value → Option String
  | .str s => some s
  | _ => none

/-- Modelled from the spec: coercion of a value to a linear length: an
absolute length gives a purely absolute linear, a relative value a
purely relative one, a linear itself (crate `eval`, missing from the
sources). -/
def castLinear : Value → Option Linear
  | .length l => some ⟨0, l⟩
  | .relative r => some ⟨r, 0⟩
  | .linear l => some l
  | _ => none

/-- Modelled from the spec: coercion of a value to a color (crate
`eval`, missing from the sources). -/
def castColor : Value → Option Color
  | .color c => some c
  | _ => none

/-- Modelled from the spec: coercion of a value to a direction (dynamic
value, crate `eval`, missing from the sources). -/
def castDir : Value → Option Dir
  | .dir d => some d
  | _ => none

/-- Coercion of a value to a font style: only dynamic font-style values
convert (the `castable!` block for `FontStyle` lists no other rule). -/
def castFontStyle : Value → Option FontStyle
  | .fontStyle s => some s
  | _ => none

/-- Coercion of a value to a vertical font metric: only dynamic values
convert (the `castable!` block for `VerticalFontMetric` lists no other
rule). -/
def castVerticalFontMetric : Value → Option VerticalFontMetric
  | .vertMetric m => some m
  | _ => none

/-- Coercion of a value to a template (crate `eval`; a template value
converts to its template). -/
def castTemplate : Value → Option Template
  | .template t => some t
  | _ => none

/-- Coercion of a value to a font family (`castable!` for `FontFamily`):
a string gives the named family with the lowercased name. -/
def castFontFamily : Value → Option FontFamily
  | .str s => some (.named (lower s))
  | _ => none

/-- Coercion of a value to a font family list (`castable!` for
`FontDef`): a string gives the one-element list of the lowercased named
family; an array keeps exactly the elements coercible to a font family,
in order; any other value coercible to a single font family gives the
one-element list. -/
def castFontDef : Value → Option (List FontFamily)
  | .str s => some [.named (lower s)]
  | .array vs => some (vs.filterMap castFontFamily)
  | v => (castFontFamily v).map (fun f => [f])

/-- Coercion of a value to a list of family name strings (`castable!`
for `FamilyDef`): a string gives its lowercased one-element list; an
array keeps the elements coercible to strings, each lowercased, in
order. -/
def castFamilyDef : Value → Option (List String)
  | .str s => some [lower s]
  | .array vs => some (vs.filterMap (fun v => (castEcoString v).map lower))
  | _ => none

/-- Coercion of a value to a font weight (`castable!` for `FontWeight`):
an integer representable as an unsigned 16-bit number is mapped through
`FontWeight.from_number`; any other integer falls back to the maximum
weight `FontWeight.BLACK`. -/
def castFontWeight : Value → Option FontWeight
  | .int n =>
    some (if 0 ≤ n ∧ n ≤ 65535 then FontWeight.from_number n.toNat
          else FontWeight.BLACK)
  | _ => none

/-- Coercion of a value to a font stretch (`castable!` for
`FontStretch`): a relative value maps through
`FontStretch.from_ratio`. -/
def castFontStretch : Value → Option FontStretch
  | .relative r => some (FontStretch.from_ratio r)
  | _ => none

/-- Reading the decoration substate a line kind addresses; stands for
applying the field-selector function pointer of `line_impl`. -/
def FontState.getLine (k : LineKind) (f : FontState) : Option LineState :=
  match k with
  | .strikethrough => f.strikethrough
  | .underline => f.underline
  | .overline => f.overline

/-- Writing the decoration substate a line kind addresses. -/
def FontState.setLine (k : LineKind) (st : Option LineState) (f : FontState) :
    FontState :=
  match k with
  | .strikethrough => { f with strikethrough := st }
  | .underline => { f with underline := st }
  | .overline => { f with overline := st }

/-- The size mutation of the `font` closure: a set size resolves against
the font size current at application time. -/
def updSize (o : Option Linear) (f : FontState) : FontState :=
  match o with
  | some linear => { f with size := linear.resolve f.size }
  | none => f

/-- The family-list mutation of the `font` closure. -/
def updList (o : Option (List FontFamily)) (f : FontState) : FontState :=
  match o with
  | some list => { f with families := { f.families with list := list } }
  | none => f

/-- The style mutation of the `font` closure. -/
def updStyle (o : Option FontStyle) (f : FontState) : FontState :=
  match o with
  | some style => { f with variant := { f.variant with style := style } }
  | none => f

/-- The weight mutation of the `font` closure. -/
def updWeight (o : Option FontWeight) (f : FontState) : FontState :=
  match o with
  | some weight => { f with variant := { f.variant with weight := weight } }
  | none => f

/-- The stretch mutation of the `font` closure. -/
def updStretch (o : Option FontStretch) (f : FontState) : FontState :=
  match o with
  | some stretch => { f with variant := { f.variant with stretch := stretch } }
  | none => f

/-- The top-edge mutation of the `font` closure. -/
def updTopEdge (o : Option VerticalFontMetric) (f : FontState) : FontState :=
  match o with
  | some e => { f with top_edge := e }
  | none => f

/-- The bottom-edge mutation of the `font` closure. -/
def updBottomEdge (o : Option VerticalFontMetric) (f : FontState) : FontState :=
  match o with
  | some e => { f with bottom_edge := e }
  | none => f

/-- The fill mutation of the `font` closure: a set fill color is wrapped
into a paint. -/
def updFill (o : Option Color) (f : FontState) : FontState :=
  match o with
  | some c => { f with fill := Paint.color c }
  | none => f

/-- The serif-chain mutation of the `font` closure. -/
def updSerif (o : Option (List String)) (f : FontState) : FontState :=
  match o with
  | some v => { f with families := { f.families with serif := v } }
  | none => f

/-- The sans-serif-chain mutation of the `font` closure. -/
def updSansSerif (o : Option (List String)) (f : FontState) : FontState :=
  match o with
  | some v => { f with families := { f.families with sans_serif := v } }
  | none => f

/-- The monospace-chain mutation of the `font` closure. -/
def updMonospace (o : Option (List String)) (f : FontState) : FontState :=
  match o with
  | some v => { f with families := { f.families with monospace := v } }
  | none => f

/-- The state mutation of the closure built by `font`: each set option
overwrites its field of the font state, in source order; unset options
leave their field untouched. -/
def applyFont (o : FontOptions) (s : State) : State :=
  { s with font :=
      updMonospace o.monospace (updSansSerif o.sans_serif (updSerif o.serif
        (updFill o.fill (updBottomEdge o.bottom_edge (updTopEdge o.top_edge
          (updStretch o.stretch (updWeight o.weight (updStyle o.style
            (updList o.list (updSize o.size s.font)))))))))) }

/-- The state mutation of the closure built by `par`: each set option
overwrites its field of the paragraph state. -/
def applyPar (o : ParOptions) (s : State) : State :=
  let p0 := s.par
  let p1 := match o.spacing with
    | some v => { p0 with spacing := v }
    | none => p0
  let p2 := match o.leading with
    | some v => { p1 with leading := v }
    | none => p1
  let p3 := match o.word_spacing with
    | some v => { p2 with word_spacing := v }
    | none => p2
  { s with par := p3 }

/-- The state mutation of the closure built by `lang`: the validated
named direction, or else the direction derived from the positional ISO
code, overwrites the language state's direction; if neither is present
the language state is untouched. -/
def applyLang (dir iso : Option Dir) (s : State) : State :=
  match dir.or iso with
  | some d => { s with lang := { s.lang with dir := d } }
  | none => s

/-- The state mutation of the closure built by `line_impl`: the captured
decoration descriptor (possibly `none`) overwrites the addressed
decoration substate unconditionally. -/
def applyLine (k : LineKind) (st : Option LineState) (s : State) : State :=
  { s with font := s.font.setLine k st }

/-- An observation the layout collaborator makes during execution:
literal text together with the style state in force at that point, or a
paragraph break. -/
inductive Event where
  | text (s : String) (st : State)
  | parbreak
deriving DecidableEq

/-- Modelled from the spec: the context's scoped execution of a template
(crate `exec`, missing from the sources): a style template applies its
set options to a working copy of the state, executes its nested body
under the new state, and on completion of the body the previous state is
reinstalled as current; literal content observes the current state;
`par` and `lang` trigger a paragraph break before the body.  Returns the
state current after the template completes, and the observations made
during execution. -/
def exec : Template → State → State × List Event
  | .empty, s => (s, [])
  | .text str, s => (s, [Event.text str s])
  | .seq a b, s =>
    let r1 := exec a s
    let r2 := exec b r1.1
    (r2.1, r1.2 ++ r2.2)
  | .font o b, s => (s, (exec b (applyFont o s)).2)
  | .par o b, s => (s, Event.parbreak :: (exec b (applyPar o s)).2)
  | .lang d i b, s => (s, Event.parbreak :: (exec b (applyLang d i s)).2)
  | .line k st b, s => (s, (exec b (applyLine k st s)).2)

/-- Modelled from the spec: the evaluation context as this layer sees
it: the sink of recorded diagnostics (crate `eval`, missing from the
sources). -/
structure EvalContext where
  diags : List String

/-- Modelled from the spec: recording one non-fatal diagnostic. -/
def EvalContext.diag (c : EvalContext) (m : String) : EvalContext :=
  ⟨c.diags ++ [m]⟩

/-- Modelled from the spec: one argument of an invocation: an optional
name and a value (crate `eval`, missing from the sources). -/
structure Arg where
  name : Option String
  value : Value

/-- Modelled from the spec: the argument list handed to a command by the
argument-binding collaborator (crate `eval`, missing from the
sources). -/
structure FuncArgs where
  items : List Arg

/-- Modelled from the spec: taking the next unnamed argument, optionally
coerced: the first unnamed argument the coercion accepts is removed and
returned; if no unnamed argument coerces, the list is unchanged and the
option is treated as unset. -/
def eat {α : Type} (cast : Value → Option α) : List Arg → Option α × List Arg
  | [] => (none, [])
  | a :: rest =>
    match a.name, cast a.value with
    | none, some v => (some v, rest)
    | _, _ =>
      let r := eat cast rest
      (r.1, a :: r.2)

/-- Modelled from the spec: taking a named argument by key, optionally
coerced: the first argument carrying the key is removed; if its value
fails to coerce the option is treated as unset, not a hard error. -/
def namedArg {α : Type} (cast : Value → Option α) (key : String) :
    List Arg → Option α × List Arg
  | [] => (none, [])
  | a :: rest =>
    if a.name = some key then (cast a.value, rest)
    else
      let r := namedArg cast key rest
      (r.1, a :: r.2)

/-- Modelled from the spec: taking all remaining unnamed arguments as a
sequence, coerced element-wise: every unnamed argument the coercion
accepts is removed and collected in order; the rest stay. -/
def allArgs {α : Type} (cast : Value → Option α) :
    List Arg → List α × List Arg
  | [] => ([], [])
  | a :: rest =>
    match a.name, cast a.value with
    | none, some v =>
      let r := allArgs cast rest
      (v :: r.1, r.2)
    | _, _ =>
      let r := allArgs cast rest
      (r.1, a :: r.2)

/-- Modelled from the spec: taking a required argument: like `eat`, but
when nothing binds, a binding diagnostic carrying the argument name is
recorded and the caller falls back (for `body`, to an empty body) rather
than failing. -/
def expect {α : Type} (cast : Value → Option α) (what : String)
    (ctx : EvalContext) (args : List Arg) :
    Option α × List Arg × EvalContext :=
  let r := eat cast args
  match r.1 with
  | some v => (some v, r.2, ctx)
  | none => (none, r.2, ctx.diag ("missing " ++ what))

/-- The option-extraction stage of the `font` command, in source order:
collect all positional families (falling back to the named `family`
argument when none are given), then size (positional or named), then the
named scalar options. -/
def fontOpts (args : List Arg) : FontOptions × List Arg :=
  let p1 := allArgs castFontFamily args
  let q :=
    if p1.1.isEmpty then namedArg castFontDef ("family") p1.2
    else (some p1.1, p1.2)
  let p3 := eat castLinear q.2
  let p4 := match p3.1 with
    | some l => (some l, p3.2)
    | none => namedArg castLinear ("size") p3.2
  let p5 := namedArg castFontStyle ("style") p4.2
  let p6 := namedArg castFontWeight ("weight") p5.2
  let p7 := namedArg castFontStretch ("stretch") p6.2
  let p8 := namedArg castVerticalFontMetric ("top-edge") p7.2
  let p9 := namedArg castVerticalFontMetric ("bottom-edge") p8.2
  let p10 := namedArg castColor ("fill") p9.2
  let p11 := namedArg castFamilyDef ("serif") p10.2
  let p12 := namedArg castFamilyDef ("sans-serif") p11.2
  let p13 := namedArg castFamilyDef ("monospace") p12.2
  (⟨p4.1, q.1, p5.1, p6.1, p7.1, p8.1, p9.1, p10.1, p11.1, p12.1, p13.1⟩,
    p13.2)

/-- The `font` command: extract and coerce the options, take the
required body (an empty body when it is missing), and return a template
value capturing them. -/
def font (ctx : EvalContext) (args : FuncArgs) : EvalContext × Value :=
  let p := fontOpts args.items
  let q := expect castTemplate ("body") ctx p.2
  (q.2.2, Value.template (Template.font p.1 (q.1.getD Template.empty)))

/-- The option-extraction stage of the `par` command. -/
def parOpts (args : List Arg) : ParOptions × List Arg :=
  let p1 := namedArg castLinear ("spacing") args
  let p2 := namedArg castLinear ("leading") p1.2
  let p3 := namedArg castLinear ("word-spacing") p2.2
  (⟨p1.1, p2.1, p3.1⟩, p3.2)

/-- The `par` command: extract and coerce the options, take the required
body, and return a template value capturing them. -/
def par (ctx : EvalContext) (args : FuncArgs) : EvalContext × Value :=
  let p := parOpts args.items
  let q := expect castTemplate ("body") ctx p.2
  (q.2.2, Value.template (Template.par p.1 (q.1.getD Template.empty)))

/-- The default direction for the language identified by `iso`
(`lang_dir` in the source): the listed codes are right-to-left, every
other string left-to-right, compared after ASCII lowercasing. -/
def lang_dir (iso : String) : Dir :=
  match lower iso with
  | "ar" | "he" | "fa" | "ur" | "ps" | "yi" => Dir.rtl
  | "en" | "fr" | "de" => Dir.ltr
  | _ => Dir.ltr

/-- The `lang` command: derive a direction from the positional ISO code,
validate the named `dir` option (a direction off the horizontal axis
records one diagnostic and is dropped, treated as unset), take the
required body, and return a template value capturing them. -/
def lang (ctx : EvalContext) (args : FuncArgs) : EvalContext × Value :=
  let p1 := eat castEcoString args.items
  let iso := p1.1.map (fun s => lang_dir s)
  let p2 := namedArg castDir ("dir") p1.2
  let dc : Option Dir × EvalContext :=
    match p2.1 with
    | some d =>
      if d.axis = SpecAxis.horizontal then (some d, ctx)
      else (none, ctx.diag ("must be horizontal"))
    | none => (none, ctx)
  let p3 := expect castTemplate ("body") dc.2 p2.2
  (p3.2.2, Value.template (Template.lang dc.1 iso (p3.1.getD Template.empty)))

/-- The stroke extraction of `line_impl`: positional, or else named
`stroke`. -/
def lineStroke (args : List Arg) : Option Color × List Arg :=
  let p := eat castColor args
  match p.1 with
  | some c => (some c, p.2)
  | none => namedArg castColor ("stroke") p.2

/-- The thickness extraction of `line_impl`: positional, or else named
`thickness`. -/
def lineThickness (args : List Arg) : Option Linear × List Arg :=
  let p := eat castLinear args
  match p.1 with
  | some l => (some l, p.2)
  | none => namedArg castLinear ("thickness") p.2

/-- The descriptor construction of `line_impl`: a descriptor carrying
the given stroke (as a paint), thickness, offset and extent is built
unless the thickness is explicitly zero, in which case no descriptor is
built (suppressing any existing decoration). -/
def lineStateOf (stroke : Option Color) (thickness offset : Option Linear)
    (extent : Linear) : Option LineState :=
  if thickness.elim true (fun s => !s.isZero) then
    some { stroke := stroke.map Paint.color, thickness := thickness,
           offset := offset, extent := extent }
  else none

/-- The option-extraction stage of `line_impl`, in source order: stroke,
thickness, offset, extent (defaulting to zero), combined into the
captured decoration descriptor. -/
def lineOpts (args : List Arg) : Option LineState × List Arg :=
  let p1 := lineStroke args
  let p2 := lineThickness p1.2
  let p3 := namedArg castLinear ("offset") p2.2
  let p4 := namedArg castLinear ("extent") p3.2
  (lineStateOf p1.1 p2.1 p3.1 (p4.1.getD ⟨0, 0⟩), p4.2)

/-- The shared implementation of the three decoration commands: extract
the options, build the captured descriptor, take the required body, and
return a template value capturing them for the addressed substate. -/
def line_impl (k : LineKind) (ctx : EvalContext) (args : FuncArgs) :
    EvalContext × Value :=
  let p := lineOpts args.items
  let q := expect castTemplate ("body") ctx p.2
  (q.2.2, Value.template (Template.line k p.1 (q.1.getD Template.empty)))

/-- The `strike` command. -/
def strike (ctx : EvalContext) (args : FuncArgs) : EvalContext × Value :=
  line_impl LineKind.strikethrough ctx args

/-- The `underline` command. -/
def underline (ctx : EvalContext) (args : FuncArgs) : EvalContext × Value :=
  line_impl LineKind.underline ctx args

/-- The `overline` command. -/
def overline (ctx : EvalContext) (args : FuncArgs) : EvalContext × Value :=
  line_impl LineKind.overline ctx args

/-- The template carried by a value; a non-template value stands for
empty content. -/
def getTemplate : Value → Template
  | .template t => t
  | _ => .empty

/-- The captured body of a style template (the template itself when it
is not a style template). -/
def templateBody : Template → Template
  | .font _ b => b
  | .par _ b => b
  | .lang _ _ b => b
  | .line _ _ b => b
  | t => t

/-- Modelled from the spec: a concrete root state with process-wide
defaults, used to evaluate the development on concrete inputs. -/
def defaultState : State where
  font :=
    { size := 11
      families :=
        { list := [FontFamily.serif]
          serif := ["eb garamond"]
          sans_serif := ["pt sans"]
          monospace := ["inconsolata"] }
      variant :=
        { style := FontStyle.normal
          weight := FontWeight.from_number 400
          stretch := FontStretch.from_ratio 1 }
      top_edge := VerticalFontMetric.capHeight
      bottom_edge := VerticalFontMetric.baseline
      fill := Paint.color ⟨0⟩
      strikethrough := none
      underline := none
      overline := none }
  par :=
    { spacing := ⟨1, 0⟩
      leading := ⟨1/2, 0⟩
      word_spacing := ⟨1/4, 0⟩ }
  lang := { dir := Dir.ltr }

/-- Scoped execution restores the incoming state: executing any
template against any state returns to exactly that state, because every
style node reinstalls its saved snapshot once its body completes and
literal content never mutates the state. -/
lemma exec_fst (t : Template) : ∀ s : State, (exec t s).1 = s := by
  induction t with
  | empty => intro s; rfl
  | text str => intro s; rfl
  | seq a b iha ihb => intro s; simp only [exec]; rw [ihb, iha]
  | font o b ih => intro s; rfl
  | par o b ih => intro s; rfl
  | lang d i b ih => intro s; rfl
  | line k st b ih => intro s; rfl

/-- Reading back the decoration substate just written. -/
lemma getLine_setLine (k : LineKind) (st : Option LineState) (f : FontState) :
    (f.setLine k st).getLine k = st := by
  cases k <;> rfl

lemma updList_size (o : Option (List FontFamily)) (f : FontState) :
    (updList o f).size = f.size := by cases o <;> rfl

lemma updStyle_size (o : Option FontStyle) (f : FontState) :
    (updStyle o f).size = f.size := by cases o <;> rfl

lemma updWeight_size (o : Option FontWeight) (f : FontState) :
    (updWeight o f).size = f.size := by cases o <;> rfl

lemma updStretch_size (o : Option FontStretch) (f : FontState) :
    (updStretch o f).size = f.size := by cases o <;> rfl

lemma updTopEdge_size (o : Option VerticalFontMetric) (f : FontState) :
    (updTopEdge o f).size = f.size := by cases o <;> rfl

lemma updBottomEdge_size (o : Option VerticalFontMetric) (f : FontState) :
    (updBottomEdge o f).size = f.size := by cases o <;> rfl

lemma updFill_size (o : Option Color) (f : FontState) :
    (updFill o f).size = f.size := by cases o <;> rfl

lemma updSerif_size (o : Option (List String)) (f : FontState) :
    (updSerif o f).size = f.size := by cases o <;> rfl

lemma updSansSerif_size (o : Option (List String)) (f : FontState) :
    (updSansSerif o f).size = f.size := by cases o <;> rfl

lemma updMonospace_size (o : Option (List String)) (f : FontState) :
    (updMonospace o f).size = f.size := by cases o <;> rfl

/-- Only the size option of a `font` template touches the font size. -/
lemma applyFont_size (o : FontOptions) (s : State) :
    (applyFont o s).font.size = (updSize o.size s.font).size := by
  simp only [applyFont]
  rw [updMonospace_size, updSansSerif_size, updSerif_size, updFill_size,
    updBottomEdge_size, updTopEdge_size, updStretch_size, updWeight_size,
    updStyle_size, updList_size]

/-- `eat` only ever removes arguments. -/
lemma mem_eat {α : Type} (cast : Value → Option α) :
    ∀ (l : List Arg) (a : Arg), a ∈ (eat cast l).2 → a ∈ l := by
  intro l
  induction l with
  | nil => intro a h; simp [eat] at h
  | cons x xs ih =>
    intro a h
    simp only [eat] at h
    split at h
    · exact List.mem_cons_of_mem x h
    · rcases List.mem_cons.mp h with rfl | h2
      · exact List.mem_cons_self a xs
      · exact List.mem_cons_of_mem x (ih a h2)

/-- `namedArg` only ever removes arguments. -/
lemma mem_namedArg {α : Type} (cast : Value → Option α) (key : String) :
    ∀ (l : List Arg) (a : Arg), a ∈ (namedArg cast key l).2 → a ∈ l := by
  intro l
  induction l with
  | nil => intro a h; simp [namedArg] at h
  | cons x xs ih =>
    intro a h
    simp only [namedArg] at h
    split at h
    · exact List.mem_cons_of_mem x h
    · rcases List.mem_cons.mp h with rfl | h2
      · exact List.mem_cons_self a xs
      · exact List.mem_cons_of_mem x (ih a h2)

/-- `allArgs` only ever removes arguments. -/
lemma mem_allArgs {α : Type} (cast : Value → Option α) :
    ∀ (l : List Arg) (a : Arg), a ∈ (allArgs cast l).2 → a ∈ l := by
  intro l
  induction l with
  | nil => intro a h; simp [allArgs] at h
  | cons x xs ih =>
    intro a h
    simp only [allArgs] at h
    split at h
    · exact List.mem_cons_of_mem x (ih a h)
    · rcases List.mem_cons.mp h with rfl | h2
      · exact List.mem_cons_self a xs
      · exact List.mem_cons_of_mem x (ih a h2)

/-- When no unnamed argument coerces, `eat` binds nothing. -/
lemma eat_none_fst {α : Type} (cast : Value → Option α) :
    ∀ (l : List Arg), (∀ a ∈ l, a.name = none → cast a.value = none) →
      (eat cast l).1 = none := by
  intro l
  induction l with
  | nil => intro _; rfl
  | cons x xs ih =>
    intro h
    simp only [eat]
    split
    · rename_i v h1 h2
      rw [h x (List.mem_cons_self x xs) h1] at h2
      exact absurd h2 (by simp)
    · exact ih (fun a ha hn => h a (List.mem_cons_of_mem x ha) hn)

/-- The option-extraction stage of `font` only ever removes
arguments. -/
lemma mem_fontOpts (l : List Arg) (a : Arg) (h : a ∈ (fontOpts l).2) :
    a ∈ l := by
  simp only [fontOpts] at h
  replace h := mem_namedArg _ _ _ _ h
  replace h := mem_namedArg _ _ _ _ h
  replace h := mem_namedArg _ _ _ _ h
  replace h := mem_namedArg _ _ _ _ h
  replace h := mem_namedArg _ _ _ _ h
  replace h := mem_namedArg _ _ _ _ h
  replace h := mem_namedArg _ _ _ _ h
  replace h := mem_namedArg _ _ _ _ h
  replace h := mem_namedArg _ _ _ _ h
  split at h
  · replace h := mem_eat _ _ _ h
    split at h
    · replace h := mem_namedArg _ _ _ _ h
      exact mem_allArgs _ _ _ h
    · exact mem_allArgs _ _ _ h
  · replace h := mem_namedArg _ _ _ _ h
    replace h := mem_eat _ _ _ h
    split at h
    · replace h := mem_namedArg _ _ _ _ h
      exact mem_allArgs _ _ _ h
    · exact mem_allArgs _ _ _ h

/-- The option-extraction stage of `par` only ever removes arguments. -/
lemma mem_parOpts (l : List Arg) (a : Arg) (h : a ∈ (parOpts l).2) :
    a ∈ l := by
  simp only [parOpts] at h
  replace h := mem_namedArg _ _ _ _ h
  replace h := mem_namedArg _ _ _ _ h
  exact mem_namedArg _ _ _ _ h

/-- The option-extraction stage of `line_impl` only ever removes
arguments. -/
lemma mem_lineOpts (l : List Arg) (a : Arg) (h : a ∈ (lineOpts l).2) :
    a ∈ l := by
  simp only [lineOpts, lineStroke, lineThickness] at h
  replace h := mem_namedArg _ _ _ _ h
  replace h := mem_namedArg _ _ _ _ h
  split at h
  · replace h := mem_eat _ _ _ h
    split at h
    · exact mem_eat _ _ _ h
    · replace h := mem_namedArg _ _ _ _ h
      exact mem_eat _ _ _ h
  · replace h := mem_namedArg _ _ _ _ h
    replace h := mem_eat _ _ _ h
    split at h
    · exact mem_eat _ _ _ h
    · replace h := mem_namedArg _ _ _ _ h
      exact mem_eat _ _ _ h

/-- Claim C1 (scope-revert law): for every style command (font, par,
lang, strike, underline, overline), every argument list and every
formatting context, after the template produced by the command finishes
executing its body against that context, the context's entire
style-state aggregate equals the aggregate observed immediately before
the template was executed; in particular every field corresponding to an
option the command did not set equals the value that field had before
execution. -/
theorem scope_revert_law (ctx : EvalContext) (args : FuncArgs) (s : State) :
    (exec (getTemplate (font ctx args).2) s).1 = s ∧
    (exec (getTemplate (par ctx args).2) s).1 = s ∧
    (exec (getTemplate (lang ctx args).2) s).1 = s ∧
    (exec (getTemplate (strike ctx args).2) s).1 = s ∧
    (exec (getTemplate (underline ctx args).2) s).1 = s ∧
    (exec (getTemplate (overline ctx args).2) s).1 = s :=
  ⟨exec_fst _ s, exec_fst _ s, exec_fst _ s, exec_fst _ s, exec_fst _ s,
    exec_fst _ s⟩

/-- Claim C2 (identity law): for every style command invoked with no
options set (only a body), executing the produced template against any
context leaves the relevant style-state aggregate (font state for font
and the decoration commands, paragraph state for par, language state for
lang) unchanged after the body completes. -/
theorem identity_law (b : Template) (ctx : EvalContext) (s : State) :
    let args : FuncArgs := ⟨[⟨none, Value.template b⟩]⟩
    (exec (getTemplate (font ctx args).2) s).1.font = s.font ∧
    (exec (getTemplate (par ctx args).2) s).1.par = s.par ∧
    (exec (getTemplate (lang ctx args).2) s).1.lang = s.lang ∧
    (exec (getTemplate (strike ctx args).2) s).1.font = s.font ∧
    (exec (getTemplate (underline ctx args).2) s).1.font = s.font ∧
    (exec (getTemplate (overline ctx args).2) s).1.font = s.font :=
  ⟨congrArg State.font (exec_fst _ s), congrArg State.par (exec_fst _ s),
    congrArg State.lang (exec_fst _ s), congrArg State.font (exec_fst _ s),
    congrArg State.font (exec_fst _ s), congrArg State.font (exec_fst _ s)⟩

/-- Claim C5: coercion to a font-family list never fails for strings or
arrays: a single string yields the one-element list containing the
lowercased string, and an array yields exactly the elements on which the
scalar rule succeeds, each lowercased, in the original relative order,
silently dropping ill-typed elements, possibly yielding an empty
list.  The same holds for the plain family-name list coercion. -/
theorem family_list_coercion :
    (∀ s : String,
      castFontDef (Value.str s) = some [FontFamily.named (lower s)]) ∧
    (∀ vs : List Value,
      castFontDef (Value.array vs) = some (vs.filterMap castFontFamily)) ∧
    (∀ vs : List Value, (castFontDef (Value.array vs)).isSome = true) ∧
    castFontDef (Value.array [Value.str ("A"), Value.int 1, Value.str ("B")]) =
      some [FontFamily.named ("a"), FontFamily.named ("b")] ∧
    castFontDef (Value.array [Value.int 3]) = some [] ∧
    (∀ s : String, castFamilyDef (Value.str s) = some [lower s]) ∧
    (∀ vs : List Value,
      castFamilyDef (Value.array vs) =
        some (vs.filterMap (fun v => (castEcoString v).map lower))) := by
  refine ⟨fun s => rfl, fun vs => rfl, fun vs => rfl, ?_, rfl, fun s => rfl,
    fun vs => rfl⟩
  decide

/-- Claim C6: coercing an integer to a font weight never fails: every
integer that is negative or exceeds the unsigned 16-bit range yields the
fallback sentinel weight BLACK, and every other integer is mapped
through the numeric weight scale by `FontWeight.from_number`. -/
theorem weight_coercion (n : ℤ) :
    (n < 0 ∨ 65535 < n →
      castFontWeight (Value.int n) = some FontWeight.BLACK) ∧
    (0 ≤ n → n ≤ 65535 →
      castFontWeight (Value.int n) = some (FontWeight.from_number n.toNat)) ∧
    (castFontWeight (Value.int n)).isSome = true := by
  refine ⟨fun h => ?_, fun h1 h2 => ?_, ?_⟩
  · simp only [castFontWeight]
    rw [if_neg]
    omega
  · simp only [castFontWeight]
    rw [if_pos]
    omega
  · simp [castFontWeight]

/-- Witness for C6: the coercion at the concrete invalid integer -5 and
the concrete valid integer 700. -/
theorem weight_coercion_witness :
    ((-5 : ℤ) < 0 ∨ 65535 < (-5 : ℤ)) ∧
    castFontWeight (Value.int (-5)) = some FontWeight.BLACK ∧
    castFontWeight (Value.int 700) =
      some (FontWeight.from_number (700 : ℤ).toNat) :=
  ⟨Or.inl (by norm_num), (weight_coercion (-5)).1 (Or.inl (by norm_num)),
    (weight_coercion 700).2.1 (by norm_num) (by norm_num)⟩

/-- Claim C7: a relative size option stored by `font` is resolved
against the font size current in the executing context at the moment the
template is executed; executing the same template under two contexts
with different current sizes yields different stored sizes. -/
theorem relative_size_resolution (o : FontOptions) (l : Linear)
    (s₁ s₂ : State) (h : o.size = some l) (hrel : l.rel ≠ 0)
    (hneq : s₁.font.size ≠ s₂.font.size) :
    (applyFont o s₁).font.size = l.resolve s₁.font.size ∧
    (applyFont o s₂).font.size = l.resolve s₂.font.size ∧
    (applyFont o s₁).font.size ≠ (applyFont o s₂).font.size := by
  have e1 : (applyFont o s₁).font.size = l.resolve s₁.font.size := by
    rw [applyFont_size, h]; rfl
  have e2 : (applyFont o s₂).font.size = l.resolve s₂.font.size := by
    rw [applyFont_size, h]; rfl
  refine ⟨e1, e2, ?_⟩
  rw [e1, e2]
  unfold Linear.resolve
  intro hEq
  exact hneq (mul_left_cancel₀ hrel (add_right_cancel hEq))

/-- Witness for C7: a size of one half of the current size, applied
under the default state (size 11) and under a state of size 22, stores
different sizes. -/
theorem relative_size_resolution_witness :
    (⟨some ⟨1/2, 0⟩, none, none, none, none, none, none, none, none, none,
        none⟩ : FontOptions).size = some ⟨1/2, 0⟩ ∧
    (applyFont ⟨some ⟨1/2, 0⟩, none, none, none, none, none, none, none,
        none, none, none⟩ defaultState).font.size ≠
      (applyFont ⟨some ⟨1/2, 0⟩, none, none, none, none, none, none, none,
        none, none, none⟩
        { defaultState with
          font := { defaultState.font with size := 22 } }).font.size :=
  ⟨rfl,
    (relative_size_resolution
      ⟨some ⟨1/2, 0⟩, none, none, none, none, none, none, none, none, none,
        none⟩
      ⟨1/2, 0⟩ defaultState
      { defaultState with font := { defaultState.font with size := 22 } }
      rfl (by norm_num) (by decide)).2.2⟩

/-- Claim C3: when a decoration command is given an explicit thickness
equal to zero, the captured descriptor is not-present, and executing the
produced template clears the addressed decoration substate to `none`,
regardless of the other arguments and of the descriptor's prior
value. -/
theorem zero_thickness_clears (k : LineKind) (ctx : EvalContext)
    (args : FuncArgs) (l : Linear) (s : State)
    (h : (lineThickness (lineStroke args.items).2).1 = some l)
    (hz : l.isZero = true) :
    (lineOpts args.items).1 = none ∧
    (∃ b, getTemplate (line_impl k ctx args).2 = Template.line k none b) ∧
    (applyLine k (lineOpts args.items).1 s).font.getLine k = none := by
  have hnone : (lineOpts args.items).1 = none := by
    simp only [lineOpts, h, lineStateOf, Option.elim, hz, Bool.not_true]
    simp
  refine ⟨hnone, ?_, ?_⟩
  · exact ⟨_, by rw [show (line_impl k ctx args).2 = Value.template
      (Template.line k (lineOpts args.items).1
        ((expect castTemplate ("body") ctx (lineOpts args.items).2).1.getD
          Template.empty)) from rfl, hnone]; rfl⟩
  · rw [hnone]
    exact getLine_setLine k none s.font

/-- Witness for C3: `strike` invoked with a named thickness of zero
clears an inherited strikethrough descriptor. -/
theorem zero_thickness_clears_witness :
    (lineThickness (lineStroke
      ([⟨some ("thickness"), Value.length 0⟩,
        ⟨none, Value.template Template.empty⟩] : List Arg)).2).1 =
      some ⟨0, 0⟩ ∧
    (⟨0, 0⟩ : Linear).isZero = true ∧
    (applyLine LineKind.strikethrough
      (lineOpts [⟨some ("thickness"), Value.length 0⟩,
        ⟨none, Value.template Template.empty⟩]).1
      { defaultState with
        font := { defaultState.font with
          strikethrough :=
            some { stroke := none, thickness := none, offset := none,
                   extent := ⟨0, 0⟩ } } }).font.getLine
      LineKind.strikethrough = none :=
  ⟨by decide, by decide,
    (zero_thickness_clears LineKind.strikethrough ⟨[]⟩
      ⟨[⟨some ("thickness"), Value.length 0⟩,
        ⟨none, Value.template Template.empty⟩]⟩ ⟨0, 0⟩
      { defaultState with
        font := { defaultState.font with
          strikethrough :=
            some { stroke := none, thickness := none, offset := none,
                   extent := ⟨0, 0⟩ } } }
      (by decide) (by decide)).2.2⟩

/-- Claim C9: a decoration command given an explicit non-zero thickness
and no stroke argument captures a descriptor whose stroke is unset,
whose thickness is the given value and whose offset and extent carry the
extracted or default values, and executing the produced template
installs exactly that descriptor in the addressed substate. -/
theorem nonzero_thickness_descriptor (k : LineKind) (args : FuncArgs)
    (l : Linear) (s : State)
    (hs : (lineStroke args.items).1 = none)
    (h : (lineThickness (lineStroke args.items).2).1 = some l)
    (hz : l.isZero = false) :
    (lineOpts args.items).1 =
      some { stroke := none, thickness := some l,
             offset := (namedArg castLinear ("offset")
               (lineThickness (lineStroke args.items).2).2).1,
             extent := (namedArg castLinear ("extent")
               (namedArg castLinear ("offset")
                 (lineThickness (lineStroke args.items).2).2).2).1.getD
               ⟨0, 0⟩ } ∧
    (applyLine k (lineOpts args.items).1 s).font.getLine k =
      (lineOpts args.items).1 := by
  have hsome : (lineOpts args.items).1 = some
      { stroke := none, thickness := some l,
        offset := (namedArg castLinear ("offset")
          (lineThickness (lineStroke args.items).2).2).1,
        extent := (namedArg castLinear ("extent")
          (namedArg castLinear ("offset")
            (lineThickness (lineStroke args.items).2).2).2).1.getD ⟨0, 0⟩ } := by
    simp only [lineOpts, hs, h, lineStateOf, Option.elim, hz, Bool.not_false]
    simp [Option.map]
  exact ⟨hsome, getLine_setLine k _ s.font⟩

/-- Witness for C9: `underline` with a named thickness of two and a
named offset of one and no stroke installs the captured descriptor. -/
theorem nonzero_thickness_descriptor_witness :
    (lineStroke ([⟨some ("thickness"), Value.length 2⟩,
      ⟨some ("offset"), Value.length 1⟩,
      ⟨none, Value.template Template.empty⟩] : List Arg)).1 = none ∧
    (⟨0, 2⟩ : Linear).isZero = false ∧
    (applyLine LineKind.underline
      (lineOpts [⟨some ("thickness"), Value.length 2⟩,
        ⟨some ("offset"), Value.length 1⟩,
        ⟨none, Value.template Template.empty⟩]).1
      defaultState).font.getLine LineKind.underline =
      (lineOpts [⟨some ("thickness"), Value.length 2⟩,
        ⟨some ("offset"), Value.length 1⟩,
        ⟨none, Value.template Template.empty⟩]).1 :=
  ⟨by decide, by decide,
    (nonzero_thickness_descriptor LineKind.underline
      ⟨[⟨some ("thickness"), Value.length 2⟩,
        ⟨some ("offset"), Value.length 1⟩,
        ⟨none, Value.template Template.empty⟩]⟩ ⟨0, 2⟩ defaultState
      (by decide) (by decide) (by decide)).2⟩

/-- Claim C4: when `lang` is invoked with a named dir argument lying on
the vertical logical axis (and no positional ISO code, with a body
present), exactly one diagnostic is recorded at invocation time, the
option is dropped so the produced template carries no direction, and
executing the template leaves the language state's direction unchanged
from its prior value. -/
theorem vertical_dir_dropped (ctx : EvalContext) (args : FuncArgs)
    (d : Dir) (s : State)
    (hd : (namedArg castDir ("dir") (eat castEcoString args.items).2).1 =
      some d)
    (hv : d.axis = SpecAxis.vertical)
    (hiso : (eat castEcoString args.items).1 = none)
    (hbody : ((eat castTemplate
      (namedArg castDir ("dir") (eat castEcoString args.items).2).2).1).isSome
      = true) :
    (lang ctx args).1.diags = ctx.diags ++ [("must be horizontal")] ∧
    (∃ b, getTemplate (lang ctx args).2 = Template.lang none none b) ∧
    (exec (getTemplate (lang ctx args).2) s).1.lang.dir = s.lang.dir ∧
    (∀ st : State, (applyLang none none st).lang.dir = st.lang.dir) := by
  obtain ⟨b, hb⟩ := Option.isSome_iff_exists.mp hbody
  have hlang : lang ctx args =
      (ctx.diag ("must be horizontal"),
        Value.template (Template.lang none none b)) := by
    simp only [lang, expect, hd, hiso, hb, hv]
    simp
  refine ⟨?_, ⟨b, ?_⟩, ?_, fun st => rfl⟩
  · rw [hlang]; rfl
  · rw [hlang]; rfl
  · rw [hlang]
    show (exec (Template.lang none none b) s).1.lang.dir = s.lang.dir
    rw [exec_fst]

/-- Claim C8: for every style command, when no argument binds as the
required body, the command does not fail: it falls back to an empty
body, still returns a template value carrying the extracted options, and
executing that template applies the set options and completes
normally. -/
theorem missing_body_defaults (ctx : EvalContext) (args : FuncArgs)
    (h : ∀ a ∈ args.items, a.name = none → castTemplate a.value = none) :
    (font ctx args).2 =
      Value.template (Template.font (fontOpts args.items).1 Template.empty) ∧
    (par ctx args).2 =
      Value.template (Template.par (parOpts args.items).1 Template.empty) ∧
    templateBody (getTemplate (lang ctx args).2) = Template.empty ∧
    (strike ctx args).2 = Value.template
      (Template.line LineKind.strikethrough (lineOpts args.items).1
        Template.empty) ∧
    (underline ctx args).2 = Value.template
      (Template.line LineKind.underline (lineOpts args.items).1
        Template.empty) ∧
    (overline ctx args).2 = Value.template
      (Template.line LineKind.overline (lineOpts args.items).1
        Template.empty) ∧
    (∀ s : State,
      exec (Template.font (fontOpts args.items).1 Template.empty) s =
        (s, [])) := by
  have hfont : (eat castTemplate (fontOpts args.items).2).1 = none :=
    eat_none_fst _ _ (fun a ha hn => h a (mem_fontOpts _ _ ha) hn)
  have hpar : (eat castTemplate (parOpts args.items).2).1 = none :=
    eat_none_fst _ _ (fun a ha hn => h a (mem_parOpts _ _ ha) hn)
  have hline : (eat castTemplate (lineOpts args.items).2).1 = none :=
    eat_none_fst _ _ (fun a ha hn => h a (mem_lineOpts _ _ ha) hn)
  have hlangpos : (eat castTemplate
      (namedArg castDir ("dir") (eat castEcoString args.items).2).2).1 =
      none := by
    refine eat_none_fst _ _ (fun a ha hn => ?_)
    replace ha := mem_namedArg _ _ _ _ ha
    exact h a (mem_eat _ _ _ ha) hn
  refine ⟨?_, ?_, ?_, ?_, ?_, ?_, fun s => rfl⟩
  · simp only [font, expect, hfont, Option.getD_none]
  · simp only [par, expect, hpar, Option.getD_none]
  · simp only [lang, expect, hlangpos]
    simp [getTemplate, templateBody]
  · simp only [strike, line_impl, expect, hline, Option.getD_none]
  · simp only [underline, line_impl, expect, hline, Option.getD_none]
  · simp only [overline, line_impl, expect, hline, Option.getD_none]

/-- Witness for C8: `font` invoked with only a named weight and no body
still returns a template, with an empty body. -/
theorem missing_body_defaults_witness :
    (∀ a ∈ ([⟨some ("weight"), Value.int 300⟩] : List Arg),
      a.name = none → castTemplate a.value = none) ∧
    (font ⟨[]⟩ ⟨[⟨some ("weight"), Value.int 300⟩]⟩).2 =
      Value.template
        (Template.font (fontOpts [⟨some ("weight"), Value.int 300⟩]).1
          Template.empty) :=
  ⟨by decide,
    (missing_body_defaults ⟨[]⟩ ⟨[⟨some ("weight"), Value.int 300⟩]⟩
      (by decide)).1⟩

/-- Claim C10: in `lang`, a valid horizontal named dir takes precedence
over the direction derived from the positional ISO code; when the named
dir is rejected as vertical, or absent, a positional ISO code still sets
the direction to the table-derived value; and every ISO string whose
lowercasing lies outside the listed right-to-left set maps to
left-to-right, every one inside it to right-to-left. -/
theorem lang_dir_precedence :
    (∀ (ctx : EvalContext) (args : FuncArgs) (d : Dir),
      (namedArg castDir ("dir") (eat castEcoString args.items).2).1 =
        some d →
      d.axis = SpecAxis.horizontal →
      ∃ b, getTemplate (lang ctx args).2 =
        Template.lang (some d)
          ((eat castEcoString args.items).1.map (fun s => lang_dir s)) b) ∧
    (∀ (ctx : EvalContext) (args : FuncArgs) (d : Dir) (s' : String),
      (namedArg castDir ("dir") (eat castEcoString args.items).2).1 =
        some d →
      d.axis = SpecAxis.vertical →
      (eat castEcoString args.items).1 = some s' →
      ∃ b, getTemplate (lang ctx args).2 =
        Template.lang none (some (lang_dir s')) b) ∧
    (∀ (ctx : EvalContext) (args : FuncArgs) (s' : String),
      (namedArg castDir ("dir") (eat castEcoString args.items).2).1 = none →
      (eat castEcoString args.items).1 = some s' →
      ∃ b, getTemplate (lang ctx args).2 =
        Template.lang none (some (lang_dir s')) b) ∧
    (∀ (st : State) (d : Dir) (i : Option Dir),
      (applyLang (some d) i st).lang.dir = d) ∧
    (∀ (st : State) (s' : String),
      (applyLang none (some (lang_dir s')) st).lang.dir = lang_dir s') ∧
    (∀ s' : String,
      lower s' ∉ (["ar", "he", "fa", "ur", "ps", "yi"] : List String) →
      lang_dir s' = Dir.ltr) ∧
    (∀ s' : String,
      lower s' ∈ (["ar", "he", "fa", "ur", "ps", "yi"] : List String) →
      lang_dir s' = Dir.rtl) := by
  refine ⟨?_, ?_, ?_, fun st d i => rfl, fun st s' => rfl, ?_, ?_⟩
  · intro ctx args d hd hh
    refine ⟨(expect castTemplate ("body") ctx
      (namedArg castDir ("dir") (eat castEcoString args.items).2).2).1.getD
      Template.empty, ?_⟩
    simp only [lang, hd, hh]
    simp [getTemplate]
  · intro ctx args d s' hd hv hiso
    refine ⟨(expect castTemplate ("body") (ctx.diag ("must be horizontal"))
      (namedArg castDir ("dir") (eat castEcoString args.items).2).2).1.getD
      Template.empty, ?_⟩
    simp only [lang, hd, hv, hiso]
    simp [getTemplate]
  · intro ctx args s' hd hiso
    refine ⟨(expect castTemplate ("body") ctx
      (namedArg castDir ("dir") (eat castEcoString args.items).2).2).1.getD
      Template.empty, ?_⟩
    simp only [lang, hd, hiso]
    simp [getTemplate]
  · intro s' h
    unfold lang_dir
    split
    all_goals first
      | rfl
      | (rename_i heq; rw [heq] at h; simp at h)
  · intro s' h
    unfold lang_dir
    split
    all_goals first
      | rfl
      | (rename_i heq; rw [heq] at h; simp at h)
      | (rename_i hne1 hne2 hne3 hne4 hne5 hne6 hne7 hne8 hne9
         simp only [List.mem_cons, List.not_mem_nil, or_false] at h
         rcases h with h | h | h | h | h | h
         exacts [absurd h hne1, absurd h hne2, absurd h hne3, absurd h hne4,
           absurd h hne5, absurd h hne6])

/-- Witness for C10: with a positional ISO code `en` and a named
horizontal right-to-left dir, the dir wins; `zz` maps to left-to-right
and the uppercased `AR` to right-to-left. -/
theorem lang_dir_precedence_witness :
    (∃ b, getTemplate (lang ⟨[]⟩
      ⟨[⟨none, Value.str ("en")⟩, ⟨some ("dir"), Value.dir Dir.rtl⟩,
        ⟨none, Value.template Template.empty⟩]⟩).2 =
      Template.lang (some Dir.rtl)
        ((eat castEcoString
          ([⟨none, Value.str ("en")⟩, ⟨some ("dir"), Value.dir Dir.rtl⟩,
            ⟨none, Value.template Template.empty⟩] : List Arg)).1.map
          (fun s => lang_dir s)) b) ∧
    lang_dir ("zz") = Dir.ltr ∧
    lang_dir ("AR") = Dir.rtl :=
  ⟨lang_dir_precedence.1 ⟨[]⟩
      ⟨[⟨none, Value.str ("en")⟩, ⟨some ("dir"), Value.dir Dir.rtl⟩,
        ⟨none, Value.template Template.empty⟩]⟩ Dir.rtl (by decide) rfl,
    lang_dir_precedence.2.2.2.2.2.1 ("zz") (by decide),
    lang_dir_precedence.2.2.2.2.2.2 ("AR") (by decide)⟩

/-- Witness for C4: `lang` invoked with the vertical direction
top-to-bottom and a body records exactly the one axis diagnostic. -/
theorem vertical_dir_dropped_witness :
    Dir.ttb.axis = SpecAxis.vertical ∧
    (lang ⟨[]⟩ ⟨[⟨some ("dir"), Value.dir Dir.ttb⟩,
      ⟨none, Value.template Template.empty⟩]⟩).1.diags =
      ([] : List String) ++ [("must be horizontal")] :=
  ⟨rfl,
    (vertical_dir_dropped ⟨[]⟩
      ⟨[⟨some ("dir"), Value.dir Dir.ttb⟩,
        ⟨none, Value.template Template.empty⟩]⟩ Dir.ttb defaultState
      (by decide) rfl (by decide) (by decide)).1⟩

end Typst
